import Mathlib

/-!
Verification development for the sales-analyzer application
(`src/streamlit_app.py`).

The file shallowly embeds the data-processing core of the program:

* `validate_columns` (source lines 37-67): required-column checking with
  case/whitespace-insensitive fallback matching and renaming;
* the data-cleaning step of `main` (lines 258-260): date parsing with
  `pd.to_datetime` followed by `dropna` on the quantity, price and date
  columns;
* `calculate_revenue_metrics` (lines 69-82): the derived revenue column
  and the revenue-by-product-type aggregate;
* `calculate_trends` (lines 111-133): monthly revenue buckets and the
  month-over-month change between the last two buckets;
* the composition of these stages in `main` (lines 218-324), including
  the outer exception handler that turns any raised error into a
  "critical processing error" report.

Modelling conventions:

* A pandas cell that may be missing (`NaN`/`NaT`) is an `Option`;
  numeric cells are rationals (`ℚ`), which is exact for every decimal
  the program can read, so floating-point rounding itself is not
  modelled (no claim depends on it).
* Python strings are Lean `String`s.  `str.strip().lower()` and the
  lexicographic-by-codepoint ordering that pandas uses to sort group
  keys are re-implemented structurally on `List Char` (`trimChars`,
  `Char.toLower`, `strLtL`) so that every definition evaluates inside
  the kernel; on the ASCII headers and keys this program manipulates
  they agree with Python's versions.
* `pd.to_datetime` is modelled by `parseDate`, a structural parser for
  ISO `YYYY-MM-DD` strings.  Like `pd.to_datetime(...)` with its default
  `errors='raise'`, the column-level `to_datetime` step fails outright
  on the first present-but-unparseable value; a string such as
  `"not-a-date"` is unparseable both for pandas and for this model.
* The user-visible metric strings built from f-string templates are
  abstracted by the `Metric` inductive: one constructor per template,
  carrying the interpolated values (the `$,.2f` currency formatting
  itself is not modelled; no claim depends on it).
* Python passes the dataframe object by reference, and
  `data['Total Revenue'] = ...` (line 73) / `data['Month'] = ...`
  (line 116) assign a column on that same object.  The frames
  `deriveRevenueFrame df` and `addMonthFrame df` therefore denote the
  state of the *caller's* dataframe after the corresponding call, not a
  fresh copy: a new column is appended at the end of the column list,
  exactly as pandas `__setitem__` does.
-/

/-- The seven required column names (source lines 6-9).  The source keeps
them in a Python `set`; every result proved below is independent of
iteration order (their normalizations are pairwise distinct), so a list
in the literal order of the source suffices. -/
def REQUIRED_COLUMNS : List String :=
  ["Order Number", "Part Number", "Qty Shipped", "Product Type",
   "Pieces per Carton", "Date Ordered", "Price"]

/-- Drop leading and trailing whitespace characters: structural model of
Python `str.strip()` on the ASCII header strings this program sees. -/
def trimChars (cs : List Char) : List Char :=
  ((cs.dropWhile Char.isWhitespace).reverse.dropWhile Char.isWhitespace).reverse

/-- `col.strip().lower()` — the header normalization applied on both
sides of the fallback matching (source lines 45-46). -/
def normalizeHeader (s : String) : String :=
  String.mk ((trimChars s.data).map Char.toLower)

/-- `REQUIRED_COLUMNS - set(df.columns)` (source line 40): the required
names that do not appear literally among the headers. -/
def missingExact (headers : List String) : List String :=
  REQUIRED_COLUMNS.filter (fun c => decide (c ∉ headers))

/-- Lookup in the dict comprehension
`normalized_actual = {col.strip().lower(): col for col in df.columns}`
(source line 45).  A Python dict comprehension lets a later entry
overwrite an earlier one with the same key, so the header stored under a
normalization is the **last** header in column order with that
normalization — hence `getLast?` of the matching headers. -/
def normalizedActual (headers : List String) (key : String) : Option String :=
  (headers.filter (fun h => decide (normalizeHeader h = key))).getLast?

/-- The `matched_columns` dict (source lines 48-51) as an association
list `actual ↦ required`, one entry per required name whose
normalization occurs among the headers.  The keys are pairwise distinct
(two required names never share a normalization), so the list length is
the Python `len(matched_columns)`. -/
def matchedColumns (headers : List String) : List (String × String) :=
  REQUIRED_COLUMNS.filterMap
    (fun req => (normalizedActual headers (normalizeHeader req)).map (fun act => (act, req)))

/-- `REQUIRED_COLUMNS - set(matched_columns.values())` (source line 59). -/
def stillMissing (headers : List String) : List String :=
  REQUIRED_COLUMNS.filter
    (fun req => decide (req ∉ (matchedColumns headers).map Prod.snd))

/-- The error message built at source lines 60-66: it interpolates the
comma-joined still-missing required names and the file's own headers. -/
def errorMessage (still : List String) (headers : List String) : String :=
  "Column matching failed. Missing or mismatched columns: " ++
    String.intercalate ", " still ++
    " Your file contains: " ++ String.intercalate ", " headers

/-- `df.rename(columns=matched_columns)` (source line 55) restricted to
the header list: each header that is a key of the mapping is replaced by
its value, all others stay. -/
def renameHeaders (headers : List String) (m : List (String × String)) : List String :=
  headers.map (fun h => (m.lookup h).getD h)

/-- `validate_columns` (source lines 37-67) restricted to what it does
with the column names; on success it returns the (possibly renamed)
header list, on failure the error message.  The returned `Bool` is the
first component of the Python pair.  The Lean function is total: the
source likewise raises nothing on string headers. -/
def validate_columns (headers : List String) : Bool × (List String ⊕ String) :=
  if missingExact headers = [] then (true, Sum.inl headers)
  else if (matchedColumns headers).length = REQUIRED_COLUMNS.length then
    (true, Sum.inl (renameHeaders headers (matchedColumns headers)))
  else (false, Sum.inr (errorMessage (stillMissing headers) headers))

/-- What the spec says the tie-break should be: the **first** header in
original column order whose normalization matches the required name.
Stated from the spec's words, for comparison with `normalizedActual`. -/
def spec_first_match (headers : List String) (req : String) : Option String :=
  (headers.filter (fun h => decide (normalizeHeader h = normalizeHeader req))).head?

/-- A calendar date as produced by the date parser. -/
structure Date where
  year : ℕ
  month : ℕ
  day : ℕ
  deriving DecidableEq, Repr

/-- `dt.to_period('M')` granularity: a year-month bucket, encoded as a
single natural number so that the pandas chronological (ascending) sort
of `Period` keys is the `≤` order on `ℕ`. -/
def toMonthIdx (d : Date) : ℕ := d.year * 12 + (d.month - 1)

/-- Read a nonempty all-digit character list as a natural number. -/
def digitsToNat (cs : List Char) : Option ℕ :=
  if cs.isEmpty then none
  else if cs.all Char.isDigit then
    some (cs.foldl (fun n c => 10 * n + (c.toNat - 48)) 0)
  else none

/-- Split a character list at `'-'` separators. -/
def splitDash : List Char → List (List Char)
  | [] => [[]]
  | c :: rest =>
    match splitDash rest with
    | [] => [[]]
    | g :: gs => if c = '-' then [] :: g :: gs else (c :: g) :: gs

/-- Model of `pd.to_datetime` applied to one cell value: parses ISO
`YYYY-MM-DD` strings; anything else is unparseable (and, at column
level, raises — see `cleanData`). -/
def parseDate (s : String) : Option Date :=
  match splitDash s.data with
  | [y, m, d] =>
    match digitsToNat y, digitsToNat m, digitsToNat d with
    | some yn, some mn, some dn =>
      if 1 ≤ mn ∧ mn ≤ 12 ∧ 1 ≤ dn ∧ dn ≤ 31 then some ⟨yn, mn, dn⟩ else none
    | _, _, _ => none
  | _ => none

/-- A row of the uploaded table as it reaches the cleaning step of
`main`, restricted to the columns the pipeline reads.  Each cell may be
missing (`NaN`). -/
structure RawRow where
  qtyShipped : Option ℚ
  price : Option ℚ
  productType : Option String
  dateOrdered : Option String
  deriving DecidableEq, Repr

/-- A row after cleaning: the date column holds parsed dates, and the
derived `Total Revenue` / `Month` columns may have been filled in. -/
structure Row where
  qtyShipped : Option ℚ
  price : Option ℚ
  productType : Option String
  date : Option Date
  totalRevenue : Option ℚ
  month : Option ℕ
  deriving DecidableEq, Repr

/-- A dataframe: its column-name list (in pandas column order) and its
rows.  Row cells for columns the pipeline never reads are not carried. -/
structure DataFrame where
  cols : List String
  rows : List Row
  deriving DecidableEq, Repr

/-- The user-visible metric strings, abstracted to one constructor per
f-string template with the interpolated values as arguments:
`totalRev` = line 75, `revByTypeHeader` = line 79, `revByType` = line
81, `momChange` = lines 123-127, `needTwoMonths` = line 129. -/
inductive Metric where
  | totalRev (amount : ℚ)
  | revByTypeHeader
  | revByType (productType : String) (amount : ℚ)
  | momChange (growthPct : ℚ) (previous current : ℚ)
  | needTwoMonths
  deriving DecidableEq, Repr

/-- Lines 258-260 of `main`:
`df['Date Ordered'] = pd.to_datetime(df['Date Ordered'])` followed by
`df = df.dropna(subset=['Qty Shipped', 'Price', 'Date Ordered'])`.
`pd.to_datetime` (default `errors='raise'`) raises on the first
present-but-unparseable date value, which the outer handler of `main`
turns into a critical error aborting the whole run — hence the
`Except`.  Missing dates become `NaT` without error and are then
dropped, together with every row missing a quantity or price value. -/
def cleanData (raws : List RawRow) : Except String (List Row) :=
  match raws.find? (fun r =>
      match r.dateOrdered with
      | some s => (parseDate s).isNone
      | none => false) with
  | some bad => Except.error ("Unable to parse date: " ++ bad.dateOrdered.getD "")
  | none =>
    let rows := raws.map (fun r =>
      { qtyShipped := r.qtyShipped, price := r.price,
        productType := r.productType,
        date := r.dateOrdered.bind parseDate,
        totalRevenue := none, month := none : Row })
    Except.ok (rows.filter (fun r =>
      r.qtyShipped.isSome && r.price.isSome && r.date.isSome))

/-- The state of the dataframe object right after source line 73,
`data['Total Revenue'] = data['Qty Shipped'] * data['Price']`.
Because the assignment mutates the object the caller passed in, this is
also the caller's dataframe after `calculate_revenue_metrics` returns.
Element-wise multiplication with a missing operand yields `NaN`
(an absent revenue); a brand-new column is appended at the end of the
column list, an existing one is overwritten in place. -/
def deriveRevenueFrame (df : DataFrame) : DataFrame :=
  if "Qty Shipped" ∈ df.cols ∧ "Price" ∈ df.cols then
    { cols := if "Total Revenue" ∈ df.cols then df.cols
              else df.cols ++ ["Total Revenue"],
      rows := df.rows.map (fun r =>
        { r with totalRevenue :=
            match r.qtyShipped, r.price with
            | some q, some p => some (q * p)
            | _, _ => none }) }
  else df

/-- The revenue of one group:
`data.groupby(k)['Total Revenue'].sum()` for the rows whose key cell
equals `some k`; pandas `sum` skips `NaN` values (an empty or all-`NaN`
group sums to 0). -/
def groupRevenueSum {κ : Type} [DecidableEq κ]
    (key : Row → Option κ) (rows : List Row) (k : κ) : ℚ :=
  ((rows.filter (fun r => decide (key r = some k))).filterMap Row.totalRevenue).sum

/-- `data.groupby(key)['Total Revenue'].sum()` as an ordered table:
pandas forms one group per distinct present key (rows with a missing
key are dropped) and sorts the groups by key in ascending order
(`groupby`'s default `sort=True`, `dropna=True`). -/
def groupSums {κ : Type} [DecidableEq κ] (r : κ → κ → Prop) [DecidableRel r]
    (key : Row → Option κ) (rows : List Row) : List (κ × ℚ) :=
  (((rows.filterMap key).dedup).insertionSort r).map
    (fun k => (k, groupRevenueSum key rows k))

/-- Lexicographic-by-codepoint comparison of character lists: the order
in which pandas sorts string group keys. -/
def strLtL : List Char → List Char → Bool
  | [], [] => false
  | [], _ :: _ => true
  | _ :: _, [] => false
  | a :: as, b :: bs =>
    if a.toNat < b.toNat then true
    else if b.toNat < a.toNat then false
    else strLtL as bs

/-- `s ≤ t` for strings, as `¬ t < s` over `strLtL`. -/
def strle (s t : String) : Prop := strLtL t.data s.data = false

instance : DecidableRel strle :=
  fun s t => inferInstanceAs (Decidable (strLtL t.data s.data = false))

/-- `data.groupby('Product Type')['Total Revenue'].sum().reset_index()`
(source line 78): the revenue-by-product-type aggregate, one pair per
product type, in ascending key order. -/
def revenue_by_type (rows : List Row) : List (String × ℚ) :=
  groupSums strle Row.productType rows

/-- `data.groupby('Month')['Total Revenue'].sum()` (source line 117):
monthly revenue buckets in chronological order. -/
def monthly_revenue (rows : List Row) : List (ℕ × ℚ) :=
  groupSums (· ≤ ·) Row.month rows

/-- `calculate_revenue_metrics` (source lines 69-82).  When both the
quantity and the price column are present it derives the revenue
column (mutating the frame, see `deriveRevenueFrame`), reports the
total, and groups by `'Product Type'` — an operation that raises
`KeyError` if that column is absent (caught by `main`'s outer handler),
hence the `Except`.  When either column is absent the body is skipped
and the function silently returns the empty metric list with the data
untouched. -/
def calculate_revenue_metrics (df : DataFrame) :
    Except String (List Metric × DataFrame) :=
  if "Qty Shipped" ∈ df.cols ∧ "Price" ∈ df.cols then
    let data := deriveRevenueFrame df
    if "Product Type" ∈ df.cols then
      let byType := revenue_by_type data.rows
      Except.ok
        ([Metric.totalRev ((data.rows.filterMap Row.totalRevenue).sum),
          Metric.revByTypeHeader] ++
          byType.map (fun kv => Metric.revByType kv.1 kv.2),
         data)
    else Except.error "KeyError: Product Type"
  else Except.ok ([], df)

/-- The state of the dataframe object right after source line 116,
`data['Month'] = data['Date Ordered'].dt.to_period('M')` — again an
in-place column assignment on the caller's object, performed whenever
the guard of line 114 holds. -/
def addMonthFrame (df : DataFrame) : DataFrame :=
  if "Date Ordered" ∈ df.cols ∧ "Total Revenue" ∈ df.cols then
    { cols := if "Month" ∈ df.cols then df.cols else df.cols ++ ["Month"],
      rows := df.rows.map (fun r => { r with month := r.date.map toMonthIdx }) }
  else df

/-- `calculate_trends` (source lines 111-133).  With the date and
revenue columns present it buckets revenue by month and, given at least
two buckets, reports the percentage change **between the last two
buckets only** (`iloc[-1]` vs `iloc[-2]`, lines 120-122); otherwise it
reports that two months of data are needed.  The `except` branch of the
source (line 131) is unreachable here: the date column holds parsed
dates by this point, so the `.dt` accessor cannot raise.
`trendMetric` is lines 119-129: `iloc[-1]` is the last bucket and
`iloc[-2]` the one before it. -/
def trendMetric (mr : List (ℕ × ℚ)) : List Metric :=
  if h : 1 < mr.length then
    [Metric.momChange
      (((mr.get ⟨mr.length - 1, by omega⟩).2 - (mr.get ⟨mr.length - 2, by omega⟩).2) /
        (mr.get ⟨mr.length - 2, by omega⟩).2 * 100)
      (mr.get ⟨mr.length - 2, by omega⟩).2
      (mr.get ⟨mr.length - 1, by omega⟩).2]
  else [Metric.needTwoMonths]

def calculate_trends (df : DataFrame) : List Metric :=
  if "Date Ordered" ∈ df.cols ∧ "Total Revenue" ∈ df.cols then
    trendMetric (monthly_revenue (addMonthFrame df).rows)
  else []

/-- Outcome of one run of `main` (lines 218-324): `halted` = validation
failed, `st.error` shown and the function returns (the app itself
continues); `critical` = some later stage raised and the outer handler
reported a critical processing error; `completed` carries the revenue
metrics, the trend metrics, and the final (twice-mutated) dataframe
that the raw-data views and the CSV export show. -/
inductive RunOutcome where
  | halted (msg : String)
  | critical (msg : String)
  | completed (revenueMetrics : List Metric) (trendMetrics : List Metric)
      (finalFrame : DataFrame)
  deriving DecidableEq, Repr

/-- The data path of `main` (source lines 218-324): validate the
columns (halting with the validation message on failure), clean the
data, compute revenue metrics, then trends.  Any raised error surfaces
as a critical report.  `calculate_product_metrics`, charting and export
widgets read the same artifacts and add no decision logic, so they are
not embedded. -/
def runPipeline (headers : List String) (raws : List RawRow) : RunOutcome :=
  match validate_columns headers with
  | (_, Sum.inr msg) => RunOutcome.halted msg
  | (_, Sum.inl cols) =>
    match cleanData raws with
    | Except.error e => RunOutcome.critical e
    | Except.ok rows =>
      match calculate_revenue_metrics ⟨cols, rows⟩ with
      | Except.error e => RunOutcome.critical e
      | Except.ok (ms, df) =>
        RunOutcome.completed ms (calculate_trends df) (addMonthFrame df)

/-- What the spec says the product aggregate should be (§4.2): group by
the product column, sum revenue, sort **descending** by the summed
revenue (ties by key), truncate to the top 25.  Stated from the spec's
words, for comparison with `revenue_by_type`. -/
def spec_product_aggregate (rows : List Row) : List (String × ℚ) :=
  ((revenue_by_type rows).insertionSort
    (fun a b => b.2 < a.2 ∨ (b.2 = a.2 ∧ strle a.1 b.1))).take 25

/-- What the spec says the growth-trend rule should compute (§4.3/§4.4):
the arithmetic mean of all month-over-month percentage changes of the
bucket values (the first bucket has no change).  Stated from the spec's
words, for comparison with `calculate_trends`. -/
def spec_mean_growth (revs : List ℚ) : Option ℚ :=
  let changes := (revs.zip revs.tail).map (fun ab => (ab.2 - ab.1) / ab.1 * 100)
  if changes.length = 0 then none else some (changes.sum / changes.length)

/-- Demo rows and frames used by the concrete witnesses and
counterexamples below. -/
def rawA : RawRow := ⟨some 2, some 3, some "A", some "2024-01-05"⟩

def rawNoPrice : RawRow := ⟨some 4, none, some "B", some "2024-01-06"⟩

def rawBadDate : RawRow := ⟨some 4, some 1, some "B", some "not-a-date"⟩

def cleanedA : Row := ⟨some 2, some 3, some "A", some ⟨2024, 1, 5⟩, none, none⟩

def derivedA : Row := ⟨some 2, some 5, some "A", none, some 10, none⟩

def derivedB : Row := ⟨some 20, some 5, some "B", none, some 100, none⟩

def trendRowJan : Row := ⟨none, none, none, some ⟨2024, 1, 5⟩, some 100, none⟩

def trendRowFeb : Row := ⟨none, none, none, some ⟨2024, 2, 5⟩, some 150, none⟩

def trendRowMar : Row := ⟨none, none, none, some ⟨2024, 3, 5⟩, some 90, none⟩

def trendFrame : DataFrame :=
  ⟨["Date Ordered", "Total Revenue"], [trendRowJan, trendRowFeb, trendRowMar]⟩

def mutFrame : DataFrame := ⟨["Qty Shipped", "Price", "Product Type"], [derivedA]⟩

def mutFrame2 : DataFrame := ⟨["Date Ordered", "Total Revenue"], [trendRowJan]⟩

def noProductFrame : DataFrame :=
  ⟨REQUIRED_COLUMNS, [⟨some 1, some 5, none, none, none, none⟩]⟩

def dupHeaders : List String :=
  ["Order Number", "Part Number", "Qty Shipped", "Product Type",
   "Pieces per Carton", "Date Ordered", "price", "PRICE"]

def mixedHeaders : List String :=
  [" order number ", "PART NUMBER", "Qty Shipped", "Product Type",
   "Pieces per Carton", "Date Ordered", "Price"]

/-- Propositional equality of `Except` results is decidable for the
result types used here (the kernel needs this to evaluate the concrete
run outcomes below). -/
instance {ε α : Type _} [DecidableEq ε] [DecidableEq α] : DecidableEq (Except ε α) :=
  fun x y =>
    match x, y with
    | Except.error a, Except.error b =>
      if h : a = b then Decidable.isTrue (by rw [h])
      else Decidable.isFalse (fun hc => h (by cases hc; rfl))
    | Except.error _, Except.ok _ => Decidable.isFalse (fun hc => by cases hc)
    | Except.ok _, Except.error _ => Decidable.isFalse (fun hc => by cases hc)
    | Except.ok a, Except.ok b =>
      if h : a = b then Decidable.isTrue (by rw [h])
      else Decidable.isFalse (fun hc => h (by cases hc; rfl))

theorem strLtL_asymm : ∀ as bs, strLtL as bs = true → strLtL bs as = false := by
  intro as
  induction as with
  | nil =>
    intro bs h
    cases bs with
    | nil => simp [strLtL] at h
    | cons b bs => simp [strLtL]
  | cons a as ih =>
    intro bs h
    cases bs with
    | nil => simp [strLtL] at h
    | cons b bs =>
      simp only [strLtL] at h ⊢
      rcases Nat.lt_trichotomy a.toNat b.toNat with h1 | h1 | h1
      · rw [if_neg (by omega), if_pos h1]
      · rw [if_neg (by omega), if_neg (by omega)] at h
        rw [if_neg (by omega), if_neg (by omega)]
        exact ih bs h
      · rw [if_neg (by omega), if_pos h1] at h
        cases h

theorem strLtL_le_trans :
    ∀ (a b c : List Char), strLtL b a = false → strLtL c b = false → strLtL c a = false := by
  intro a
  induction a with
  | nil =>
    intro b c _ _
    cases c with
    | nil => rfl
    | cons cc cs => rfl
  | cons aa as ih =>
    intro b c h1 h2
    cases b with
    | nil => simp [strLtL] at h1
    | cons bb bs =>
      cases c with
      | nil => simp [strLtL] at h2
      | cons cc cs =>
        simp only [strLtL] at h1 h2 ⊢
        by_cases hba : bb.toNat < aa.toNat
        · rw [if_pos hba] at h1; cases h1
        · by_cases hcb : cc.toNat < bb.toNat
          · rw [if_pos hcb] at h2; cases h2
          · rw [if_neg (by omega)]
            by_cases h3 : aa.toNat < cc.toNat
            · rw [if_pos h3]
            · rw [if_neg h3]
              rw [if_neg hba, if_neg (by omega)] at h1
              rw [if_neg hcb, if_neg (by omega)] at h2
              exact ih bs cs h1 h2

instance : IsTotal String strle where
  total := by
    intro s t
    by_cases h : strLtL t.data s.data = false
    · exact Or.inl h
    · right
      have := strLtL_asymm t.data s.data (by revert h; cases strLtL t.data s.data <;> simp)
      exact this

instance : IsTrans String strle where
  trans := fun a b c h1 h2 => strLtL_le_trans a.data b.data c.data h1 h2

theorem mem_of_getLastEq {α : Type _} :
    ∀ (l : List α) (a : α), l.getLast? = some a → a ∈ l := by
  intro l
  induction l with
  | nil => intro a h; cases h
  | cons x xs ih =>
    intro a h
    cases xs with
    | nil =>
      have : x = a := by simpa [List.getLast?] using h
      simp [this]
    | cons y ys =>
      rw [List.getLast?_cons_cons] at h
      exact List.mem_cons_of_mem _ (ih a h)

theorem filter_getLast_split {α : Type _} (p : α → Bool) :
    ∀ (l : List α) (a : α), (l.filter p).getLast? = some a →
      ∃ pre post, l = pre ++ a :: post ∧ p a = true ∧ ∀ b ∈ post, p b = false := by
  intro l
  induction l with
  | nil => intro a h; simp [List.filter_nil] at h
  | cons x xs ih =>
    intro a h
    by_cases hx : p x
    · rw [List.filter_cons_of_pos hx] at h
      cases hfx : xs.filter p with
      | nil =>
        rw [hfx] at h
        have hax : x = a := by simpa [List.getLast?] using h
        refine ⟨[], xs, by simp [hax], hax ▸ hx, ?_⟩
        intro b hb
        have := List.filter_eq_nil_iff.mp hfx b hb
        revert this
        cases p b <;> simp
      | cons y ys =>
        rw [hfx, List.getLast?_cons_cons, ← hfx] at h
        obtain ⟨pre, post, hsplit, hpa, hpost⟩ := ih a h
        exact ⟨x :: pre, post, by simp [hsplit], hpa, hpost⟩
    · rw [List.filter_cons_of_neg (by simpa using hx)] at h
      obtain ⟨pre, post, hsplit, hpa, hpost⟩ := ih a h
      exact ⟨x :: pre, post, by simp [hsplit], hpa, hpost⟩

theorem filterMap_length_eq_forall_isSome {α β : Type _} (f : α → Option β) :
    ∀ (l : List α), (l.filterMap f).length = l.length → ∀ a ∈ l, (f a).isSome := by
  intro l
  induction l with
  | nil => intro _ a ha; cases ha
  | cons x xs ih =>
    intro h a ha
    cases hfx : f x with
    | none =>
      rw [List.filterMap_cons_none hfx] at h
      have := List.length_filterMap_le f xs
      simp [List.length_cons] at h
      omega
    | some b =>
      rw [List.filterMap_cons_some hfx] at h
      have h2 : (List.filterMap f xs).length = xs.length := by
        simp only [List.length_cons] at h
        omega
      rcases List.mem_cons.mp ha with rfl | hmem
      · simp [hfx]
      · exact ih h2 a hmem

theorem lookup_eq_some_of_unique {β : Type _} :
    ∀ (m : List (String × β)) (a : String) (b : β), (a, b) ∈ m →
      (∀ p ∈ m, p.1 = a → p.2 = b) → m.lookup a = some b := by
  intro m
  induction m with
  | nil => intro a b h _; cases h
  | cons x xs ih =>
    intro a b hmem huniq
    cases x with
    | mk xa xb =>
      rcases List.mem_cons.mp hmem with heq | hmem2
      · have h1 : a = xa := congrArg Prod.fst heq
        have h2 : b = xb := congrArg Prod.snd heq
        subst h1
        subst h2
        simp [List.lookup]
      · by_cases hx : xa = a
        · have hvb : xb = b := huniq (xa, xb) (List.mem_cons_self _ _) hx
          subst hx
          subst hvb
          simp [List.lookup]
        · have hne : (a == xa) = false := by
            simp only [beq_eq_false_iff_ne]
            exact fun hc => hx hc.symm
          simp only [List.lookup, hne]
          exact ih a b hmem2 (fun p hp => huniq p (List.mem_cons_of_mem _ hp))

theorem sum_map_ite_zero {κ : Type _} [DecidableEq κ] :
    ∀ (keys : List κ) (k0 : κ) (c : ℚ), k0 ∉ keys →
      (keys.map (fun k => if k0 = k then c else 0)).sum = 0 := by
  intro keys
  induction keys with
  | nil => intro _ _ _; simp
  | cons k keys ih =>
    intro k0 c hk0
    have h1 : k0 ≠ k := fun h => hk0 (h ▸ List.mem_cons_self _ _)
    simp only [List.map_cons, List.sum_cons, if_neg h1]
    rw [ih k0 c (fun h => hk0 (List.mem_cons_of_mem _ h))]
    simp

theorem sum_map_ite_single {κ : Type _} [DecidableEq κ] :
    ∀ (keys : List κ) (k0 : κ) (c : ℚ), keys.Nodup → k0 ∈ keys →
      (keys.map (fun k => if k0 = k then c else 0)).sum = c := by
  intro keys
  induction keys with
  | nil => intro _ _ _ h; cases h
  | cons k keys ih =>
    intro k0 c hnd hmem
    have hknotin : k ∉ keys := (List.nodup_cons.mp hnd).1
    rcases List.mem_cons.mp hmem with rfl | hmem2
    · simp only [List.map_cons, List.sum_cons, if_pos rfl]
      rw [sum_map_ite_zero keys k0 c hknotin]
      simp
    · have h1 : k0 ≠ k := fun h => hknotin (h ▸ hmem2)
      simp only [List.map_cons, List.sum_cons, if_neg h1]
      rw [ih k0 c (List.nodup_cons.mp hnd).2 hmem2]
      simp

theorem groupRevenueSum_cons {κ : Type} [DecidableEq κ]
    (key : Row → Option κ) (r : Row) (rows : List Row) (k : κ) :
    groupRevenueSum key (r :: rows) k =
      (if key r = some k then r.totalRevenue.getD 0 else 0) +
        groupRevenueSum key rows k := by
  unfold groupRevenueSum
  by_cases h : key r = some k
  · rw [if_pos h, List.filter_cons_of_pos (by simp [h])]
    cases hr : r.totalRevenue with
    | none =>
      rw [List.filterMap_cons_none hr]
      simp
    | some v =>
      rw [List.filterMap_cons_some hr]
      simp
  · rw [if_neg h, List.filter_cons_of_neg (by simp [h])]
    simp

theorem groupSums_partition {κ : Type} [DecidableEq κ] (key : Row → Option κ) :
    ∀ (rows : List Row) (keys : List κ), keys.Nodup →
      (∀ r ∈ rows, ∀ k, key r = some k → k ∈ keys) →
      (keys.map (groupRevenueSum key rows)).sum =
        ((rows.filter (fun r => (key r).isSome)).filterMap Row.totalRevenue).sum := by
  intro rows
  induction rows with
  | nil =>
    intro keys _ _
    have h0 : ∀ k ∈ keys, groupRevenueSum key ([] : List Row) k = 0 := by
      intro k _
      simp [groupRevenueSum]
    rw [List.map_congr_left h0]
    simp
  | cons r rows ih =>
    intro keys hnd hcov
    have hcovtail : ∀ r2 ∈ rows, ∀ k, key r2 = some k → k ∈ keys :=
      fun r2 h2 => hcov r2 (List.mem_cons_of_mem _ h2)
    cases hk : key r with
    | none =>
      rw [List.map_congr_left (fun k _ => by
        rw [groupRevenueSum_cons, hk, if_neg (by simp), zero_add])]
      rw [List.filter_cons_of_neg (by simp [hk])]
      exact ih keys hnd hcovtail
    | some k0 =>
      have hk0 : k0 ∈ keys := hcov r (List.mem_cons_self _ _) k0 hk
      rw [List.map_congr_left (fun k _ => by rw [groupRevenueSum_cons, hk])]
      rw [List.sum_map_add]
      have hpt : ∀ k ∈ keys,
          (if some k0 = some k then r.totalRevenue.getD 0 else 0) =
            if k0 = k then r.totalRevenue.getD 0 else 0 := by
        intro k _
        by_cases hx : k0 = k
        · rw [if_pos (congrArg some hx), if_pos hx]
        · rw [if_neg (fun hcc => hx (Option.some.inj hcc)), if_neg hx]
      rw [List.map_congr_left hpt]
      rw [sum_map_ite_single keys k0 _ hnd hk0]
      rw [List.filter_cons_of_pos (by simp [hk])]
      cases hr : r.totalRevenue with
      | none =>
        rw [List.filterMap_cons_none hr]
        rw [ih keys hnd hcovtail]
        simp
      | some v =>
        rw [List.filterMap_cons_some hr]
        rw [List.sum_cons, ih keys hnd hcovtail]
        simp

theorem get_append2_last {α : Type _} (l : List α) (a b : α)
    (h : (l ++ [a, b]).length - 1 < (l ++ [a, b]).length) :
    (l ++ [a, b]).get ⟨(l ++ [a, b]).length - 1, h⟩ = b := by
  have h1 : l ++ [a, b] = (l ++ [a]) ++ [b] := by simp
  have h2 : (l ++ [a, b]).getLast? = some b := by
    rw [h1]
    exact List.getLast?_concat _
  rw [List.getLast?_eq_getElem?] at h2
  rw [List.get_eq_getElem]
  rw [List.getElem?_eq_getElem h] at h2
  exact Option.some.inj h2

theorem get_append2_sndlast {α : Type _} (l : List α) (a b : α)
    (h : (l ++ [a, b]).length - 2 < (l ++ [a, b]).length) :
    (l ++ [a, b]).get ⟨(l ++ [a, b]).length - 2, h⟩ = a := by
  rw [List.get_eq_getElem]
  have hidx : (l ++ [a, b]).length - 2 = l.length := by simp
  simp only [hidx]
  rw [List.getElem_append_right (Nat.le_refl _)]
  simp

theorem get_of_eq_map {α β : Type _} {l2 : List β} {l : List α} (f : α → β)
    (hl : l2 = l.map f) (i : ℕ) (hi : i < l.length) (hi2 : i < l2.length) :
    l2.get ⟨i, hi2⟩ = f (l.get ⟨i, hi⟩) := by
  subst hl
  simp [List.get_eq_getElem, List.getElem_map]

/-- C1: for every derived row in which both the quantity value and the
price value are present, the computed revenue field equals quantity
times price exactly; it is recomputed from the two source columns — the
input row's own `totalRevenue` cell (arbitrary here) is never
consulted, so nothing is copied or cached. -/
theorem revenue_eq_qty_mul_price (df : DataFrame)
    (h1 : "Qty Shipped" ∈ df.cols) (h2 : "Price" ∈ df.cols)
    (i : ℕ) (hi : i < df.rows.length)
    (hi2 : i < (deriveRevenueFrame df).rows.length) :
    ((deriveRevenueFrame df).rows.get ⟨i, hi2⟩).qtyShipped =
        (df.rows.get ⟨i, hi⟩).qtyShipped ∧
    ((deriveRevenueFrame df).rows.get ⟨i, hi2⟩).price =
        (df.rows.get ⟨i, hi⟩).price ∧
    ∀ q p, (df.rows.get ⟨i, hi⟩).qtyShipped = some q →
      (df.rows.get ⟨i, hi⟩).price = some p →
      ((deriveRevenueFrame df).rows.get ⟨i, hi2⟩).totalRevenue = some (q * p) := by
  have hrows : (deriveRevenueFrame df).rows = df.rows.map (fun r =>
      { r with totalRevenue := match r.qtyShipped, r.price with
        | some q, some p => some (q * p)
        | _, _ => none }) := by
    unfold deriveRevenueFrame
    rw [if_pos ⟨h1, h2⟩]
  have hget := get_of_eq_map _ hrows i hi hi2
  rw [hget]
  refine ⟨rfl, rfl, ?_⟩
  intro q p hq hp
  show (match (df.rows.get ⟨i, hi⟩).qtyShipped, (df.rows.get ⟨i, hi⟩).price with
    | some q, some p => some (q * p)
    | _, _ => none) = some (q * p)
  rw [hq, hp]

/-- C1 witness: a concrete frame whose single row carries a stale
`totalRevenue` of 999; the derived row's revenue is 3 * 5 = 15,
recomputed from the quantity and price cells. -/
theorem revenue_eq_qty_mul_price_witness :
    ((deriveRevenueFrame ⟨["Qty Shipped", "Price"],
        [⟨some 3, some 5, some "A", none, some 999, none⟩]⟩).rows.get
      ⟨0, by decide⟩).totalRevenue = some 15 := by
  have h := (revenue_eq_qty_mul_price
    ⟨["Qty Shipped", "Price"], [⟨some 3, some 5, some "A", none, some 999, none⟩]⟩
    (by decide) (by decide) 0 (by decide) (by decide)).2.2 3 5 rfl rfl
  rw [h]
  norm_num

/-- C7 counterexample: `calculate_revenue_metrics` and
`calculate_trends` assign the derived columns on the dataframe object
the caller passed in (source lines 73 and 116), so the caller-visible
dataset after the call differs from the one passed in — it is not a
fresh copy. -/
theorem inplace_mutation_counterexample :
    deriveRevenueFrame mutFrame ≠ mutFrame ∧ addMonthFrame mutFrame2 ≠ mutFrame2 := by
  constructor
  · intro h
    have hc := congrArg (fun d => d.cols.length) h
    have h4 : (deriveRevenueFrame mutFrame).cols.length = 4 := by decide
    have h3 : mutFrame.cols.length = 3 := by decide
    simp only [h4, h3] at hc
    omega
  · intro h
    have hc := congrArg (fun d => d.cols.length) h
    have h4 : (addMonthFrame mutFrame2).cols.length = 3 := by decide
    have h3 : mutFrame2.cols.length = 2 := by decide
    simp only [h4, h3] at hc
    omega

/-- C7 amended: the derived columns are added to the caller's dataframe
in place — after `calculate_revenue_metrics` the caller's frame has
gained a `'Total Revenue'` column and after `calculate_trends` a
`'Month'` column; the caller-visible dataset is mutated, not copied. -/
theorem derived_columns_mutate_caller_frame (df df2 : DataFrame)
    (h1 : "Qty Shipped" ∈ df.cols) (h2 : "Price" ∈ df.cols)
    (h3 : "Total Revenue" ∉ df.cols)
    (g1 : "Date Ordered" ∈ df2.cols) (g2 : "Total Revenue" ∈ df2.cols)
    (g3 : "Month" ∉ df2.cols) :
    ((deriveRevenueFrame df).cols = df.cols ++ ["Total Revenue"] ∧
      deriveRevenueFrame df ≠ df) ∧
    ((addMonthFrame df2).cols = df2.cols ++ ["Month"] ∧
      addMonthFrame df2 ≠ df2) := by
  have e1 : (deriveRevenueFrame df).cols = df.cols ++ ["Total Revenue"] := by
    unfold deriveRevenueFrame
    rw [if_pos ⟨h1, h2⟩]
    exact if_neg h3
  have e2 : (addMonthFrame df2).cols = df2.cols ++ ["Month"] := by
    unfold addMonthFrame
    rw [if_pos ⟨g1, g2⟩]
    exact if_neg g3
  refine ⟨⟨e1, ?_⟩, ⟨e2, ?_⟩⟩
  · intro h
    have hcols := congrArg DataFrame.cols h
    rw [e1] at hcols
    have hlen := congrArg List.length hcols
    simp only [List.length_append, List.length_cons, List.length_nil] at hlen
    omega
  · intro h
    have hcols := congrArg DataFrame.cols h
    rw [e2] at hcols
    have hlen := congrArg List.length hcols
    simp only [List.length_append, List.length_cons, List.length_nil] at hlen
    omega

/-- C7 witness: the mutation theorem instantiated at concrete frames
that carry the quantity/price (resp. date/revenue) columns. -/
theorem derived_columns_mutate_caller_frame_witness :
    ((deriveRevenueFrame mutFrame).cols = mutFrame.cols ++ ["Total Revenue"] ∧
      deriveRevenueFrame mutFrame ≠ mutFrame) ∧
    ((addMonthFrame mutFrame2).cols = mutFrame2.cols ++ ["Month"] ∧
      addMonthFrame mutFrame2 ≠ mutFrame2) :=
  derived_columns_mutate_caller_frame mutFrame mutFrame2
    (by decide) (by decide) (by decide) (by decide) (by decide) (by decide)

/-- C8 counterexample: with two headers `"price"` and `"PRICE"` both
normalizing to `price`, the matching of `validate_columns` selects the
**last** one in column order (the dict comprehension lets later entries
overwrite earlier ones), not the first as claimed: `"PRICE"` is chosen
and renamed to `"Price"` while `"price"` is left untouched. -/
theorem tiebreak_last_match_counterexample :
    normalizedActual dupHeaders (normalizeHeader "Price") = some "PRICE" ∧
    spec_first_match dupHeaders "Price" = some "price" ∧
    normalizedActual dupHeaders (normalizeHeader "Price") ≠
      spec_first_match dupHeaders "Price" ∧
    validate_columns dupHeaders =
      (true, Sum.inl ["Order Number", "Part Number", "Qty Shipped", "Product Type",
        "Pieces per Carton", "Date Ordered", "price", "Price"]) := by
  decide

/-- C8 amended: when several headers match a required name, the header
selected is the last matching one in the dataset's original column
order (still deterministic): every header after the selected one fails
to match. -/
theorem tiebreak_selects_last_match (headers : List String) (req h : String)
    (hsel : normalizedActual headers (normalizeHeader req) = some h) :
    normalizeHeader h = normalizeHeader req ∧
    ∃ pre post, headers = pre ++ h :: post ∧
      ∀ h2 ∈ post, normalizeHeader h2 ≠ normalizeHeader req := by
  unfold normalizedActual at hsel
  obtain ⟨pre, post, hsplit, hph, hpost⟩ := filter_getLast_split _ headers h hsel
  refine ⟨by simpa using hph, pre, post, hsplit, ?_⟩
  intro h2 hh2
  have := hpost h2 hh2
  simpa using this

/-- C8 amended witness: instantiated at the duplicate-header list, the
selected header `"PRICE"` is the last matching one. -/
theorem tiebreak_selects_last_match_witness :
    normalizeHeader "PRICE" = normalizeHeader "Price" ∧
    ∃ pre post, dupHeaders = pre ++ "PRICE" :: post ∧
      ∀ h2 ∈ post, normalizeHeader h2 ≠ normalizeHeader "Price" :=
  tiebreak_selects_last_match dupHeaders "Price" "PRICE" (by decide)

theorem matchedColumns_mem {headers : List String} {act req : String}
    (hpair : (act, req) ∈ matchedColumns headers) :
    req ∈ REQUIRED_COLUMNS ∧
      normalizedActual headers (normalizeHeader req) = some act := by
  obtain ⟨req2, hreq2, hopt⟩ := List.mem_filterMap.mp hpair
  cases hno : normalizedActual headers (normalizeHeader req2) with
  | none => rw [hno] at hopt; cases hopt
  | some a2 =>
    rw [hno] at hopt
    have h1 : a2 = act := congrArg Prod.fst (Option.some.inj hopt)
    have h2 : req2 = req := congrArg Prod.snd (Option.some.inj hopt)
    subst h1
    subst h2
    exact ⟨hreq2, hno⟩

theorem normalizedActual_some {headers : List String} {key act : String}
    (h : normalizedActual headers key = some act) :
    act ∈ headers ∧ normalizeHeader act = key := by
  unfold normalizedActual at h
  have hmemf := mem_of_getLastEq _ _ h
  refine ⟨(List.mem_filter.mp hmemf).1, ?_⟩
  have := (List.mem_filter.mp hmemf).2
  simpa using this

theorem required_norms_nodup : (REQUIRED_COLUMNS.map normalizeHeader).Nodup := by
  decide

theorem validate_fails_of_unmatched (req : String) (hreq : req ∈ REQUIRED_COLUMNS)
    (headers : List String)
    (hnone : ∀ h ∈ headers, normalizeHeader h ≠ normalizeHeader req) :
    validate_columns headers =
      (false, Sum.inr (errorMessage (stillMissing headers) headers)) ∧
      req ∈ stillMissing headers := by
  have hreqmem : req ∉ headers := fun hmem => hnone req hmem rfl
  have hme : missingExact headers ≠ [] := by
    have : req ∈ missingExact headers :=
      List.mem_filter.mpr ⟨hreq, by simpa using hreqmem⟩
    exact List.ne_nil_of_mem this
  have hna : normalizedActual headers (normalizeHeader req) = none := by
    unfold normalizedActual
    have : headers.filter (fun h => decide (normalizeHeader h = normalizeHeader req)) = [] :=
      List.filter_eq_nil_iff.mpr (fun a ha => by simpa using hnone a ha)
    rw [this]
    rfl
  have hnotval : req ∉ (matchedColumns headers).map Prod.snd := by
    intro hmem
    obtain ⟨⟨act, req2⟩, hpair, hsnd⟩ := List.mem_map.mp hmem
    have hsnd2 : req2 = req := hsnd
    subst hsnd2
    have := (matchedColumns_mem hpair).2
    rw [hna] at this
    cases this
  have hlen : (matchedColumns headers).length ≠ REQUIRED_COLUMNS.length := by
    intro hlen
    have hsome := filterMap_length_eq_forall_isSome _ REQUIRED_COLUMNS hlen req hreq
    rw [hna] at hsome
    cases hsome
  have hstill : req ∈ stillMissing headers :=
    List.mem_filter.mpr ⟨hreq, by simpa using hnotval⟩
  refine ⟨?_, hstill⟩
  unfold validate_columns
  rw [if_neg hme, if_neg hlen]

/-- C2: when the quantity or the price column is absent from the upload
(no header normalizes to it), the run is halted with a reported,
non-fatal error whose message interpolates the missing column name(s);
revenue derivation is never silently skipped in the program flow.  In
the source the report comes from `validate_columns` + `main`
(lines 227-256), which guard the pipeline before
`calculate_revenue_metrics` runs. -/
theorem missing_column_reported_nonfatal (headers : List String) (raws : List RawRow) :
    ((∀ h ∈ headers, normalizeHeader h ≠ normalizeHeader "Price") →
      runPipeline headers raws =
        RunOutcome.halted (errorMessage (stillMissing headers) headers) ∧
      "Price" ∈ stillMissing headers) ∧
    ((∀ h ∈ headers, normalizeHeader h ≠ normalizeHeader "Qty Shipped") →
      runPipeline headers raws =
        RunOutcome.halted (errorMessage (stillMissing headers) headers) ∧
      "Qty Shipped" ∈ stillMissing headers) := by
  constructor
  · intro hnone
    obtain ⟨hval, hst⟩ :=
      validate_fails_of_unmatched "Price" (by decide) headers hnone
    refine ⟨?_, hst⟩
    unfold runPipeline
    rw [hval]
  · intro hnone
    obtain ⟨hval, hst⟩ :=
      validate_fails_of_unmatched "Qty Shipped" (by decide) headers hnone
    refine ⟨?_, hst⟩
    unfold runPipeline
    rw [hval]

/-- C2 witness: a concrete upload without any quantity-like column is
halted with the message naming `Qty Shipped`. -/
theorem missing_column_reported_nonfatal_witness :
    runPipeline ["Order Number", "Part Number", "Product Type",
        "Pieces per Carton", "Date Ordered", "Price"] [rawA] =
      RunOutcome.halted (errorMessage
        (stillMissing ["Order Number", "Part Number", "Product Type",
          "Pieces per Carton", "Date Ordered", "Price"])
        ["Order Number", "Part Number", "Product Type",
          "Pieces per Carton", "Date Ordered", "Price"]) ∧
    "Qty Shipped" ∈ stillMissing ["Order Number", "Part Number", "Product Type",
        "Pieces per Carton", "Date Ordered", "Price"] :=
  (missing_column_reported_nonfatal _ _).2 (by decide)

/-- C10: `validate_columns` returns `true` only together with a header
list in which, possibly after case/whitespace-insensitive renaming,
every one of the seven required column names occurs; otherwise it
returns `false` together with the error message listing the (nonempty)
still-missing names.  Being a total function, it never raises. -/
theorem validate_columns_spec (headers : List String) :
    ((validate_columns headers).1 = true →
      ∃ cols, (validate_columns headers).2 = Sum.inl cols ∧
        ∀ req ∈ REQUIRED_COLUMNS, req ∈ cols) ∧
    ((validate_columns headers).1 = false →
      (validate_columns headers).2 =
        Sum.inr (errorMessage (stillMissing headers) headers) ∧
        stillMissing headers ≠ []) := by
  by_cases hex : missingExact headers = []
  · have hval : validate_columns headers = (true, Sum.inl headers) := by
      unfold validate_columns
      rw [if_pos hex]
    rw [hval]
    constructor
    · intro _
      refine ⟨headers, rfl, ?_⟩
      intro req hreq
      have := List.filter_eq_nil_iff.mp hex req hreq
      simpa using this
    · intro hfalse
      cases hfalse
  · by_cases hlen : (matchedColumns headers).length = REQUIRED_COLUMNS.length
    · have hval : validate_columns headers =
          (true, Sum.inl (renameHeaders headers (matchedColumns headers))) := by
        unfold validate_columns
        rw [if_neg hex, if_pos hlen]
      rw [hval]
      refine ⟨fun _ => ⟨_, rfl, ?_⟩, fun hf => by cases hf⟩
      intro req hreq
      have hsome := filterMap_length_eq_forall_isSome _ REQUIRED_COLUMNS hlen req hreq
      have hsome2 : (normalizedActual headers (normalizeHeader req)).isSome = true := by
        cases hno : normalizedActual headers (normalizeHeader req) with
        | none => rw [hno] at hsome; simp at hsome
        | some a => rfl
      obtain ⟨act, hact⟩ := Option.isSome_iff_exists.mp hsome2
      obtain ⟨hmem, hnorm⟩ := normalizedActual_some hact
      have hpair : (act, req) ∈ matchedColumns headers :=
        List.mem_filterMap.mpr ⟨req, hreq, by rw [hact]; rfl⟩
      have huniq : ∀ p ∈ matchedColumns headers, p.1 = act → p.2 = req := by
        rintro ⟨a2, r2⟩ hp hpe
        have ha2 : a2 = act := hpe
        subst ha2
        obtain ⟨hr2req, hr2sel⟩ := matchedColumns_mem hp
        obtain ⟨_, hnorm2⟩ := normalizedActual_some hr2sel
        have : normalizeHeader r2 = normalizeHeader req := by
          rw [← hnorm2, hnorm]
        exact List.inj_on_of_nodup_map required_norms_nodup hr2req hreq this
      have hlook : (matchedColumns headers).lookup act = some req :=
        lookup_eq_some_of_unique _ act req hpair huniq
      unfold renameHeaders
      exact List.mem_map.mpr ⟨act, hmem, by rw [hlook]; rfl⟩
    · have hval : validate_columns headers =
          (false, Sum.inr (errorMessage (stillMissing headers) headers)) := by
        unfold validate_columns
        rw [if_neg hex, if_neg hlen]
      rw [hval]
      constructor
      · intro ht
        cases ht
      · intro _
        refine ⟨rfl, ?_⟩
        intro hnil
        have hsub : REQUIRED_COLUMNS ⊆ (matchedColumns headers).map Prod.snd := by
          intro req hreq
          have := List.filter_eq_nil_iff.mp hnil req hreq
          simpa using this
        have hnodup : REQUIRED_COLUMNS.Nodup := by decide
        have hle := (List.subperm_of_subset hnodup hsub).length_le
        rw [List.length_map] at hle
        have hle2 : (matchedColumns headers).length ≤ REQUIRED_COLUMNS.length := by
          unfold matchedColumns
          exact List.length_filterMap_le _ _
        omega

/-- C10 witness: a concrete upload whose headers differ from the
required names only in case and surrounding whitespace validates
successfully, with all seven required names present after renaming. -/
theorem validate_columns_spec_witness :
    ∃ cols, (validate_columns mixedHeaders).2 = Sum.inl cols ∧
      ∀ req ∈ REQUIRED_COLUMNS, req ∈ cols :=
  (validate_columns_spec mixedHeaders).1 (by decide)

/-- C4 counterexample: one unparseable date value among otherwise valid
rows makes `pd.to_datetime` raise, so the **whole run** fails with a
critical processing error; no row of this upload is bucketed.  This
contradicts the claim that unparseable dates fail only per-row. -/
theorem single_bad_date_aborts_run_counterexample :
    cleanData [rawA, rawBadDate] =
      Except.error ("Unable to parse date: not-a-date") ∧
    runPipeline REQUIRED_COLUMNS [rawA, rawBadDate] =
      RunOutcome.critical ("Unable to parse date: not-a-date") := by
  decide

/-- C4 amended: any present-but-unparseable date value in the date
column aborts the cleaning step — and with it the run — with a reported
error; only missing dates are handled per-row (dropped by `dropna`). -/
theorem unparseable_date_aborts_run (raws : List RawRow) (r : RawRow) (s : String)
    (hr : r ∈ raws) (hs : r.dateOrdered = some s) (hbad : parseDate s = none) :
    ∃ e, cleanData raws = Except.error e := by
  have hfind : (raws.find? (fun r2 =>
      match r2.dateOrdered with
      | some s2 => (parseDate s2).isNone
      | none => false)).isSome = true := by
    apply List.find?_isSome.mpr
    refine ⟨r, hr, ?_⟩
    rw [hs]
    show (parseDate s).isNone = true
    rw [hbad]
    rfl
  obtain ⟨bad, hfound⟩ := Option.isSome_iff_exists.mp hfind
  refine ⟨"Unable to parse date: " ++ bad.dateOrdered.getD "", ?_⟩
  unfold cleanData
  rw [hfound]

/-- C4 amended witness: the aborting behaviour at the concrete row with
date `"not-a-date"`. -/
theorem unparseable_date_aborts_run_witness :
    ∃ e, cleanData [rawBadDate] = Except.error e :=
  unparseable_date_aborts_run [rawBadDate] rawBadDate "not-a-date"
    (List.mem_cons_self _ _) rfl (by decide)

/-- C3 counterexample: the row with a missing price value is removed
from the dataset by `dropna` (source line 260): it is neither given an
absent revenue nor retained in the derived rows — it disappears from
the output entirely, contradicting the claimed retention. -/
theorem missing_value_row_dropped_counterexample :
    cleanData [rawA, rawNoPrice] = Except.ok [cleanedA] ∧
    [rawA, rawNoPrice].length = 2 ∧
    (deriveRevenueFrame ⟨REQUIRED_COLUMNS, [cleanedA]⟩).rows.length = 1 ∧
    ∀ r ∈ [cleanedA], r.productType ≠ some "B" := by
  decide

/-- C3 amended: rows with a missing quantity, price or date value are
dropped from the dataset entirely before revenue computation — they are
excluded from the revenue sums but also absent from the derived output;
the run itself is not aborted by a missing value. -/
theorem missing_value_rows_excluded_entirely (raws : List RawRow)
    (hdates : ∀ r ∈ raws, ∀ s, r.dateOrdered = some s → (parseDate s).isSome) :
    ∃ rows, cleanData raws = Except.ok rows ∧
      (∀ r ∈ rows, r.qtyShipped.isSome ∧ r.price.isSome ∧ r.date.isSome) ∧
      rows.length = (raws.filter (fun r =>
        r.qtyShipped.isSome && r.price.isSome &&
          (r.dateOrdered.bind parseDate).isSome)).length := by
  have hfind : raws.find? (fun r =>
      match r.dateOrdered with
      | some s => (parseDate s).isNone
      | none => false) = none := by
    apply List.find?_eq_none.mpr
    intro r hr
    cases hd : r.dateOrdered with
    | none => simp
    | some s =>
      have hps := hdates r hr s hd
      show ¬((parseDate s).isNone = true)
      simp only [Option.isNone_iff_eq_none]
      intro hnone
      rw [hnone] at hps
      cases hps
  have hclean : cleanData raws = Except.ok
      ((raws.map (fun r =>
        { qtyShipped := r.qtyShipped, price := r.price,
          productType := r.productType,
          date := r.dateOrdered.bind parseDate,
          totalRevenue := none, month := none : Row })).filter (fun r =>
        r.qtyShipped.isSome && r.price.isSome && r.date.isSome)) := by
    unfold cleanData
    rw [hfind]
  refine ⟨_, hclean, ?_, ?_⟩
  · intro r hr
    have hp := (List.mem_filter.mp hr).2
    simp only [Bool.and_eq_true] at hp
    exact ⟨hp.1.1, hp.1.2, hp.2⟩
  · rw [List.filter_map, List.length_map]
    rfl

/-- C3 amended witness: on the concrete two-row upload, one row of
which misses its price, cleaning succeeds and keeps exactly the rows
with all three values present. -/
theorem missing_value_rows_excluded_entirely_witness :
    ∃ rows, cleanData [rawA, rawNoPrice] = Except.ok rows ∧
      (∀ r ∈ rows, r.qtyShipped.isSome ∧ r.price.isSome ∧ r.date.isSome) ∧
      rows.length = ([rawA, rawNoPrice].filter (fun r =>
        r.qtyShipped.isSome && r.price.isSome &&
          (r.dateOrdered.bind parseDate).isSome)).length := by
  apply missing_value_rows_excluded_entirely
  intro r hr s hs
  rcases List.mem_cons.mp hr with rfl | hr2
  · have h1 : "2024-01-05" = s := Option.some.inj hs
    rw [← h1]
    decide
  · rcases List.mem_cons.mp hr2 with rfl | hr3
    · have h1 : "2024-01-06" = s := Option.some.inj hs
      rw [← h1]
      decide
    · cases hr3

/-- C9 counterexample: a derived row whose product cell is missing
contributes its revenue (1 * 5 = 5) to the total but to no group —
pandas `groupby` drops rows with a missing key — so the grand total of
the per-product sums (0) differs from the total revenue of all derived
rows (5). -/
theorem aggregate_total_missing_product_counterexample :
    ((revenue_by_type (deriveRevenueFrame noProductFrame).rows).map Prod.snd).sum = 0 ∧
    ((deriveRevenueFrame noProductFrame).rows.filterMap Row.totalRevenue).sum = 5 ∧
    (0 : ℚ) ≠ 5 := by
  refine ⟨?_, ?_, by norm_num⟩
  · have h : revenue_by_type (deriveRevenueFrame noProductFrame).rows = [] := by decide
    rw [h]
    simp
  · have h : (deriveRevenueFrame noProductFrame).rows.filterMap Row.totalRevenue =
        [(1 : ℚ) * 5] := rfl
    rw [h]
    simp [List.sum_cons, List.sum_nil]

/-- C9 amended: whenever every derived row has a present product value,
the sum of the product aggregate's revenue column (the aggregate is
never truncated in this code) equals the total revenue of all derived
rows; rows with a missing product key are dropped by `groupby` and
break the identity (see the counterexample). -/
theorem aggregate_totals_with_products_present (rows : List Row)
    (h : ∀ r ∈ rows, (Row.productType r).isSome) :
    ((revenue_by_type rows).map Prod.snd).sum =
      (rows.filterMap Row.totalRevenue).sum := by
  unfold revenue_by_type groupSums
  rw [List.map_map]
  have hcomp : (Prod.snd ∘ fun k => (k, groupRevenueSum Row.productType rows k)) =
      groupRevenueSum Row.productType rows := rfl
  rw [hcomp]
  have hperm := List.perm_insertionSort strle ((rows.filterMap Row.productType).dedup)
  have hnd : (((rows.filterMap Row.productType).dedup).insertionSort strle).Nodup :=
    hperm.symm.nodup (List.nodup_dedup _)
  have hcov : ∀ r ∈ rows, ∀ k, Row.productType r = some k →
      k ∈ ((rows.filterMap Row.productType).dedup).insertionSort strle := by
    intro r hr k hk
    exact hperm.symm.mem_iff.mp
      (List.mem_dedup.mpr (List.mem_filterMap.mpr ⟨r, hr, hk⟩))
  rw [groupSums_partition Row.productType rows _ hnd hcov]
  rw [List.filter_eq_self.mpr (fun r hr => h r hr)]

/-- C9 amended witness: on two concrete derived rows with products
present, the aggregate total equals the row total. -/
theorem aggregate_totals_with_products_present_witness :
    ((revenue_by_type [derivedA, derivedB]).map Prod.snd).sum =
      ([derivedA, derivedB].filterMap Row.totalRevenue).sum :=
  aggregate_totals_with_products_present [derivedA, derivedB] (by decide)

/-- C5 counterexample: the revenue-by-product aggregate that the code
produces is in ascending key order, untruncated and with the original
column names; on two products with revenues 10 and 100 the code yields
`A` before `B`, while the spec's descending-by-revenue top-25 aggregate
yields `B` before `A` — the two differ. -/
theorem product_aggregate_order_counterexample :
    revenue_by_type [derivedA, derivedB] = [("A", 10), ("B", 100)] ∧
    spec_product_aggregate [derivedA, derivedB] = [("B", 100), ("A", 10)] ∧
    revenue_by_type [derivedA, derivedB] ≠ spec_product_aggregate [derivedA, derivedB] := by
  have hA : groupRevenueSum Row.productType [derivedA, derivedB] "A" = 10 := by
    unfold groupRevenueSum
    have h1 : [derivedA, derivedB].filter
        (fun r => decide (Row.productType r = some "A")) = [derivedA] := by decide
    rw [h1]
    have h2 : [derivedA].filterMap Row.totalRevenue = [(10 : ℚ)] := rfl
    rw [h2]
    simp
  have hB : groupRevenueSum Row.productType [derivedA, derivedB] "B" = 100 := by
    unfold groupRevenueSum
    have h1 : [derivedA, derivedB].filter
        (fun r => decide (Row.productType r = some "B")) = [derivedB] := by decide
    rw [h1]
    have h2 : [derivedB].filterMap Row.totalRevenue = [(100 : ℚ)] := rfl
    rw [h2]
    simp
  have hag : revenue_by_type [derivedA, derivedB] = [("A", (10 : ℚ)), ("B", 100)] := by
    unfold revenue_by_type groupSums
    have hkeys : (([derivedA, derivedB].filterMap Row.productType).dedup).insertionSort
        strle = ["A", "B"] := by decide
    rw [hkeys]
    simp [hA, hB]
  have hspec : spec_product_aggregate [derivedA, derivedB] =
      [("B", (100 : ℚ)), ("A", 10)] := by
    unfold spec_product_aggregate
    rw [hag]
    simp only [List.insertionSort, List.orderedInsert]
    norm_num
  refine ⟨hag, hspec, ?_⟩
  rw [hag, hspec]
  decide

/-- C5 amended: when the product column is present, the aggregate is
produced by grouping the derived rows by product and summing revenue,
with the groups in **ascending** key order (pandas `groupby` default),
**no** truncation to 25 (one entry per distinct present product), and
the original column names (`Product Type`/`Total Revenue`, no
renaming); the result is emitted as formatted metric text lines. -/
theorem product_aggregate_ascending_untruncated (rows : List Row) :
    ((revenue_by_type rows).map Prod.fst).Sorted strle ∧
    (revenue_by_type rows).length = ((rows.filterMap Row.productType).dedup).length ∧
    ∀ k, k ∈ (revenue_by_type rows).map Prod.fst ↔ ∃ r ∈ rows, r.productType = some k := by
  unfold revenue_by_type groupSums
  have hfst : (Prod.fst ∘ fun k => (k, groupRevenueSum Row.productType rows k)) = id := rfl
  refine ⟨?_, ?_, ?_⟩
  · rw [List.map_map, hfst, List.map_id]
    exact List.sorted_insertionSort strle _
  · rw [List.length_map]
    exact (List.perm_insertionSort strle _).length_eq
  · intro k
    rw [List.map_map, hfst, List.map_id]
    constructor
    · intro hk
      exact List.mem_filterMap.mp
        (List.mem_dedup.mp ((List.perm_insertionSort strle _).mem_iff.mp hk))
    · intro hex
      obtain ⟨r, hr, hk⟩ := hex
      exact (List.perm_insertionSort strle _).mem_iff.mpr
        (List.mem_dedup.mpr (List.mem_filterMap.mpr ⟨r, hr, hk⟩))

theorem trendMetric_append2 (pre : List (ℕ × ℚ)) (m1 m2 : ℕ × ℚ) :
    trendMetric (pre ++ [m1, m2]) =
      [Metric.momChange ((m2.2 - m1.2) / m1.2 * 100) m1.2 m2.2] := by
  unfold trendMetric
  rw [dif_pos (by
    simp only [List.length_append, List.length_cons, List.length_nil]
    omega)]
  rw [get_append2_last, get_append2_sndlast]

theorem calculate_trends_eval (df : DataFrame) (pre : List (ℕ × ℚ)) (m1 m2 : ℕ × ℚ)
    (h1 : "Date Ordered" ∈ df.cols) (h2 : "Total Revenue" ∈ df.cols)
    (hm : monthly_revenue (addMonthFrame df).rows = pre ++ [m1, m2]) :
    calculate_trends df =
      [Metric.momChange ((m2.2 - m1.2) / m1.2 * 100) m1.2 m2.2] := by
  unfold calculate_trends
  rw [if_pos ⟨h1, h2⟩, hm]
  exact trendMetric_append2 pre m1 m2

theorem trendFrame_monthly :
    monthly_revenue (addMonthFrame trendFrame).rows =
      [(24288, 100), (24289, 150), (24290, 90)] := by
  have hrows : (addMonthFrame trendFrame).rows =
      [⟨none, none, none, some ⟨2024, 1, 5⟩, some 100, some 24288⟩,
       ⟨none, none, none, some ⟨2024, 2, 5⟩, some 150, some 24289⟩,
       ⟨none, none, none, some ⟨2024, 3, 5⟩, some 90, some 24290⟩] := by decide
  unfold monthly_revenue groupSums
  rw [hrows]
  have hkeys : (([(⟨none, none, none, some ⟨2024, 1, 5⟩, some 100, some 24288⟩ : Row),
       ⟨none, none, none, some ⟨2024, 2, 5⟩, some 150, some 24289⟩,
       ⟨none, none, none, some ⟨2024, 3, 5⟩, some 90, some 24290⟩].filterMap
        Row.month).dedup).insertionSort (· ≤ ·) = [24288, 24289, 24290] := by decide
  rw [hkeys]
  have h1 : groupRevenueSum Row.month
      [(⟨none, none, none, some ⟨2024, 1, 5⟩, some 100, some 24288⟩ : Row),
       ⟨none, none, none, some ⟨2024, 2, 5⟩, some 150, some 24289⟩,
       ⟨none, none, none, some ⟨2024, 3, 5⟩, some 90, some 24290⟩] 24288 = 100 := by
    unfold groupRevenueSum
    have hf : [(⟨none, none, none, some ⟨2024, 1, 5⟩, some 100, some 24288⟩ : Row),
       ⟨none, none, none, some ⟨2024, 2, 5⟩, some 150, some 24289⟩,
       ⟨none, none, none, some ⟨2024, 3, 5⟩, some 90, some 24290⟩].filter
        (fun r => decide (Row.month r = some 24288)) =
        [⟨none, none, none, some ⟨2024, 1, 5⟩, some 100, some 24288⟩] := by decide
    rw [hf]
    simp
  have h2 : groupRevenueSum Row.month
      [(⟨none, none, none, some ⟨2024, 1, 5⟩, some 100, some 24288⟩ : Row),
       ⟨none, none, none, some ⟨2024, 2, 5⟩, some 150, some 24289⟩,
       ⟨none, none, none, some ⟨2024, 3, 5⟩, some 90, some 24290⟩] 24289 = 150 := by
    unfold groupRevenueSum
    have hf : [(⟨none, none, none, some ⟨2024, 1, 5⟩, some 100, some 24288⟩ : Row),
       ⟨none, none, none, some ⟨2024, 2, 5⟩, some 150, some 24289⟩,
       ⟨none, none, none, some ⟨2024, 3, 5⟩, some 90, some 24290⟩].filter
        (fun r => decide (Row.month r = some 24289)) =
        [⟨none, none, none, some ⟨2024, 2, 5⟩, some 150, some 24289⟩] := by decide
    rw [hf]
    simp
  have h3 : groupRevenueSum Row.month
      [(⟨none, none, none, some ⟨2024, 1, 5⟩, some 100, some 24288⟩ : Row),
       ⟨none, none, none, some ⟨2024, 2, 5⟩, some 150, some 24289⟩,
       ⟨none, none, none, some ⟨2024, 3, 5⟩, some 90, some 24290⟩] 24290 = 90 := by
    unfold groupRevenueSum
    have hf : [(⟨none, none, none, some ⟨2024, 1, 5⟩, some 100, some 24288⟩ : Row),
       ⟨none, none, none, some ⟨2024, 2, 5⟩, some 150, some 24289⟩,
       ⟨none, none, none, some ⟨2024, 3, 5⟩, some 90, some 24290⟩].filter
        (fun r => decide (Row.month r = some 24290)) =
        [⟨none, none, none, some ⟨2024, 3, 5⟩, some 90, some 24290⟩] := by decide
    rw [hf]
    simp
  simp [h1, h2, h3]

/-- C6 counterexample: on monthly buckets with revenues 100, 150, 90
the spec's rule computes the mean of all month-over-month changes,
(+50% − 40%)/2 = +5%, and would select the positive branch; the code
instead reports a single unconditional message carrying −40%, the
change between the **last two** buckets only — it neither averages all
periods nor selects between two branches. -/
theorem growth_trend_last_two_counterexample :
    calculate_trends trendFrame = [Metric.momChange (-40) 150 90] ∧
    (monthly_revenue (addMonthFrame trendFrame).rows).map Prod.snd = [100, 150, 90] ∧
    spec_mean_growth [100, 150, 90] = some 5 ∧ (0 : ℚ) < 5 ∧ ((-40 : ℚ)) ≠ 5 := by
  refine ⟨?_, ?_, ?_, by norm_num, by norm_num⟩
  · have h := calculate_trends_eval trendFrame [(24288, 100)] (24289, 150) (24290, 90)
      (by decide) (by decide) (by rw [trendFrame_monthly]; rfl)
    rw [h]
    norm_num
  · rw [trendFrame_monthly]
    rfl
  · unfold spec_mean_growth
    norm_num [List.zip, List.zipWith, List.sum_cons, List.sum_nil]

/-- C6 amended: whenever at least two monthly buckets exist (and the
second-to-last bucket's revenue is nonzero, so that Python's float
division matches exact division), `calculate_trends` emits exactly one
unconditional message whose growth value is the percentage change
between the **last two** buckets only; no mean over all periods is
computed and there is no positive/corrective branch pair. -/
theorem growth_trend_uses_last_two_months (df : DataFrame)
    (pre : List (ℕ × ℚ)) (m1 m2 : ℕ × ℚ)
    (h1 : "Date Ordered" ∈ df.cols) (h2 : "Total Revenue" ∈ df.cols)
    (hm : monthly_revenue (addMonthFrame df).rows = pre ++ [m1, m2])
    (_hnz : m1.2 ≠ 0) :
    calculate_trends df =
      [Metric.momChange ((m2.2 - m1.2) / m1.2 * 100) m1.2 m2.2] :=
  calculate_trends_eval df pre m1 m2 h1 h2 hm

/-- C6 amended witness: at the three-month frame the emitted message
reports the change between February and March only. -/
theorem growth_trend_uses_last_two_months_witness :
    calculate_trends trendFrame =
      [Metric.momChange ((90 - 150) / 150 * 100) 150 90] := by
  have h := growth_trend_uses_last_two_months trendFrame [(24288, 100)]
    (24289, 150) (24290, 90) (by decide) (by decide)
    (by rw [trendFrame_monthly]; rfl) (by norm_num)
  rw [h]

/-- C5 amended witness: the ascending, untruncated aggregate shape at
two concrete derived rows. -/
theorem product_aggregate_ascending_untruncated_witness :
    ((revenue_by_type [derivedA, derivedB]).map Prod.fst).Sorted strle ∧
    (revenue_by_type [derivedA, derivedB]).length =
      (([derivedA, derivedB].filterMap Row.productType).dedup).length ∧
    ∀ k, k ∈ (revenue_by_type [derivedA, derivedB]).map Prod.fst ↔
      ∃ r ∈ [derivedA, derivedB], r.productType = some k :=
  product_aggregate_ascending_untruncated [derivedA, derivedB]
